import Mathlib

/-!
Shallow embedding of the `buspirate` crate's protocol engine.

The crate drives a Bus Pirate device over a serial byte transport.  We model
the transport pair (`TX: serial::Write<u8>`, `RX: serial::Read<u8>`) as an
explicit channel state `Ch`:

* `sched` is the outcome schedule of the successive tx operations
  (`write`/`flush`): `none` means the operation succeeds, `some e` means the
  underlying transport reports error `e`.  An exhausted schedule means all
  remaining tx operations succeed.
* `rx` is the list of successive results of `rx.read()`: a data byte, a
  `WouldBlock` (the `nb` crate's "not yet available"), or a transport error.
  An exhausted list behaves like `WouldBlock` forever (a silent device).
* `log` records the bytes actually written, in order (`flush` writes nothing).

Every fallible operation returns a `Res`: `ok`, an `Error` (the crate's
`Error<TXErr, RXErr>` enum), or `hang` for a blocking read that never gets a
byte (the Rust `nb::block!` would spin forever there).
-/

namespace Buspirate

/-- The crate's `Error<TXErr, RXErr>` enum from `lib.rs`. -/
inductive Error (τ ρ : Type) where
  | Protocol : Error τ ρ
  | Request : Error τ ρ
  | Write (e : τ) : Error τ ρ
  | Read (e : ρ) : Error τ ρ
  deriving DecidableEq

/-- Outcome of one modelled operation: success, crate error, or a blocking
read that never completes. -/
inductive Res (τ ρ α : Type) where
  | ok (a : α) : Res τ ρ α
  | err (e : Error τ ρ) : Res τ ρ α
  | hang : Res τ ρ α
  deriving DecidableEq

/-- One result of the non-blocking `rx.read()`: a byte, `nb`'s `WouldBlock`,
or a transport error. -/
inductive REv (ρ : Type) where
  | byte (b : Nat) : REv ρ
  | block : REv ρ
  | fail (e : ρ) : REv ρ
  deriving DecidableEq

/-- The serial channel state: tx outcome schedule, pending rx events, and the
log of bytes written so far. -/
structure Ch (τ ρ : Type) where
  sched : List (Option τ)
  rx : List (REv ρ)
  log : List Nat
  deriving DecidableEq

variable {τ ρ α β : Type}

/-- `nb::block!(tx.write(b))`, mapping a transport error through `Error::tx`. -/
def wr (b : Nat) (c : Ch τ ρ) : Res τ ρ Unit × Ch τ ρ :=
  match c.sched with
  | [] => (.ok (), { c with log := c.log ++ [b] })
  | none :: rest => (.ok (), { c with sched := rest, log := c.log ++ [b] })
  | some e :: rest => (.err (.Write e), { c with sched := rest })

/-- `nb::block!(tx.flush())`, mapping a transport error through `Error::tx`. -/
def fl (c : Ch τ ρ) : Res τ ρ Unit × Ch τ ρ :=
  match c.sched with
  | [] => (.ok (), c)
  | none :: rest => (.ok (), { c with sched := rest })
  | some e :: rest => (.err (.Write e), { c with sched := rest })

/-- Resolve one blocking read against the rx event list: skip `WouldBlock`
events (`nb::block!` retries those), stopping at a byte or an error. -/
def rdEv : List (REv ρ) → Option (Except ρ Nat) × List (REv ρ)
  | [] => (none, [])
  | .byte b :: rest => (some (.ok b), rest)
  | .block :: rest => rdEv rest
  | .fail e :: rest => (some (.error e), rest)

/-- `nb::block!(self.rx.read())`, mapping a transport error through
`Error::rx`.  `hang` when the event list is exhausted (the device never
produces another byte, so the Rust would spin forever). -/
def rd (c : Ch τ ρ) : Res τ ρ Nat × Ch τ ρ :=
  match rdEv c.rx with
  | (none, rx') => (.hang, { c with rx := rx' })
  | (some (.ok b), rx') => (.ok b, { c with rx := rx' })
  | (some (.error e), rx') => (.err (.Read e), { c with rx := rx' })

/-- Sequencing of fallible channel operations (the `?` operator). -/
def bindR (r : Res τ ρ α × Ch τ ρ) (k : α → Ch τ ρ → Res τ ρ β × Ch τ ρ) :
    Res τ ρ β × Ch τ ρ :=
  match r with
  | (.ok a, c) => k a c
  | (.err e, c) => (.err e, c)
  | (.hang, c) => (.hang, c)

/-- `for i in 0..v.len() { write(v[i])? }`: write each byte of a list. -/
def wrList (bs : List Nat) (c : Ch τ ρ) : Res τ ρ Unit × Ch τ ρ :=
  match bs with
  | [] => (.ok (), c)
  | b :: rest => bindR (wr b c) (fun _ c => wrList rest c)

/-- `for i in 0..n { v[i] = read()? }` starting at index `i`: overwrite `n`
positions of the buffer with bytes read from the channel, returning the
buffer state even when a read fails partway (the Rust mutates in place). -/
def rdFill : Nat → Nat → List Nat → Ch τ ρ → Res τ ρ Unit × List Nat × Ch τ ρ
  | 0, _, v, c => (.ok (), v, c)
  | n + 1, i, v, c =>
    match rd c with
    | (.ok b, c') => rdFill n (i + 1) (v.set i b) c'
    | (.err e, c') => (.err e, v, c')
    | (.hang, c') => (.hang, v, c')

namespace spi

/-- `SPI::transfer_bytes` from `spi.rs` (lines 109-135): guard the empty
slice, cap the length at 16, write the command byte `0b00010000 | (len-1)`,
write the data, flush, read the ack (`0x01` or `Protocol`), then read
`len` response bytes over the input buffer in place.

The middle component of the result is the buffer's final state (the Rust
overwrites the caller's slice in place, and on `Ok` returns that same slice). -/
def transfer_bytes (v : List Nat) (c : Ch τ ρ) : Res τ ρ Unit × List Nat × Ch τ ρ :=
  if v.length = 0 then (.ok (), v, c)
  else if v.length > 16 then (.err .Request, v, c)
  else
    match bindR (wr (16 ||| (v.length - 1)) c) (fun _ c =>
          bindR (wrList v c) (fun _ c =>
          bindR (fl c) (fun _ c =>
          bindR (rd c) (fun a c =>
            (if a = 1 then Res.ok () else Res.err .Protocol, c))))) with
    | (.ok _, c) => rdFill v.length 0 v c
    | (.err e, c) => (.err e, v, c)
    | (.hang, c) => (.hang, v, c)

/-- `SPI::write_then_read` from `spi.rs` (lines 151-186): independent 4096
caps on the write and read slices, command byte `0b00000100` (chip select
held) or `0b00000101`, big-endian u16 write length, big-endian u16 read
length, the write data, an ack byte, then exactly `read_into.len()` response
bytes into `read_into`.  There is no `read_len <= write_len` check. -/
def write_then_read (write_from read_into : List Nat) (cs : Bool) (c : Ch τ ρ) :
    Res τ ρ Unit × List Nat × Ch τ ρ :=
  if write_from.length > 4096 then (.err .Request, read_into, c)
  else if read_into.length > 4096 then (.err .Request, read_into, c)
  else
    match bindR (wr (if cs then 4 else 5) c) (fun _ c =>
          bindR (wr ((write_from.length >>> 8) % 256) c) (fun _ c =>
          bindR (wr (write_from.length % 256) c) (fun _ c =>
          bindR (wr ((read_into.length >>> 8) % 256) c) (fun _ c =>
          bindR (wr (read_into.length % 256) c) (fun _ c =>
          bindR (wrList write_from c) (fun _ c =>
          bindR (rd c) (fun a c =>
            (if a = 1 then Res.ok () else Res.err .Protocol, c)))))))) with
    | (.ok _, c) => rdFill read_into.length 0 read_into c
    | (.err e, c) => (.err e, read_into, c)
    | (.hang, c) => (.hang, read_into, c)

end spi

namespace Open

/-- `Open::<SPI>::transfer_bytes` from `lib.rs` (lines 161-184).  Unlike the
`spi.rs` version there is no empty-slice guard: `let len = v.len() as u8`
followed by `len - 1` underflows on a zero length (a panic in a debug build;
modelled here with u8 wrapping arithmetic, as a release build computes). -/
def transfer_bytes (v : List Nat) (c : Ch τ ρ) : Res τ ρ Unit × List Nat × Ch τ ρ :=
  if v.length > 16 then (.err .Request, v, c)
  else
    match bindR (wr (16 ||| ((v.length % 256 + 255) % 256)) c) (fun _ c =>
          bindR (wrList v c) (fun _ c =>
          bindR (fl c) (fun _ c =>
          bindR (rd c) (fun a c =>
            (if a = 1 then Res.ok () else Res.err .Protocol, c))))) with
    | (.ok _, c) => rdFill v.length 0 v c
    | (.err e, c) => (.err e, v, c)
    | (.hang, c) => (.hang, v, c)

/-- `Open::<SPI>::transfer_bytes_buffered` from `lib.rs` (lines 186-219):
cap `v.len()` at 4096, reject `want > v.len()` (the response is read back
into the same buffer `v`), command byte by chip select, big-endian u16
write and read lengths, the data, an ack byte, then `want` response bytes
into the front of `v`. -/
def transfer_bytes_buffered (v : List Nat) (want : Nat) (cs : Bool) (c : Ch τ ρ) :
    Res τ ρ Unit × List Nat × Ch τ ρ :=
  if v.length > 4096 then (.err .Request, v, c)
  else if want > v.length then (.err .Request, v, c)
  else
    match bindR (wr (if cs then 4 else 5) c) (fun _ c =>
          bindR (wr ((v.length % 65536 >>> 8) % 256) c) (fun _ c =>
          bindR (wr (v.length % 256) c) (fun _ c =>
          bindR (wr ((want >>> 8) % 256) c) (fun _ c =>
          bindR (wr (want % 256) c) (fun _ c =>
          bindR (wrList v c) (fun _ c =>
          bindR (rd c) (fun a c =>
            (if a = 1 then Res.ok () else Res.err .Protocol, c)))))))) with
    | (.ok _, c) => rdFill want 0 v c
    | (.err e, c) => (.err e, v, c)
    | (.hang, c) => (.hang, v, c)

end Open

/-- `PROTO_VERSION_MSG`: the ASCII marker `"BBIO1"` announcing binary
bit-bang protocol version 1. -/
def PROTO_VERSION_MSG : List Nat := [66, 66, 73, 79, 49]

/-- `PROTO_SPI_VERSION_MSG`: the ASCII marker `"SPI1"` announcing SPI
protocol version 1. -/
def PROTO_SPI_VERSION_MSG : List Nat := [83, 80, 73, 49]

/-- One byte of the marker matcher used inside `binary_reset_handshake` and
`binary_mode_handshake` (`lib.rs`): if the byte differs from
`expect[correct]`, reset `correct` to 0; then, if the byte equals
`expect[correct]` (re-testing the same byte against `expect[0]` after a
reset), increment. -/
def matchStep (expect : List Nat) (correct : Nat) (b : Nat) : Nat :=
  let c1 := if b ≠ expect.getD correct 0 then 0 else correct
  if b = expect.getD c1 0 then c1 + 1 else c1

/-- Outcome of one handshake attempt's inner read-and-match loop. -/
inductive AttemptOut (ρ : Type) where
  | matched : AttemptOut ρ
  | blocked : AttemptOut ρ
  | rerr (e : ρ) : AttemptOut ρ
  deriving DecidableEq

/-- The inner `loop` of a handshake attempt (`lib.rs` lines 252-271 and
296-316): non-blocking reads feed `matchStep` until the whole marker has
been matched, a read would block (the attempt is abandoned and retried), or
the transport fails.  An exhausted event list is a forever-silent device,
which the non-blocking read reports as `WouldBlock`. -/
def matchLoop (expect : List Nat) : Nat → List (REv ρ) → AttemptOut ρ × List (REv ρ)
  | _, [] => (.blocked, [])
  | correct, .byte b :: rest =>
    let c2 := matchStep expect correct b
    if c2 = expect.length then (.matched, rest)
    else matchLoop expect c2 rest
  | _, .block :: rest => (.blocked, rest)
  | _, .fail e :: rest => (.rerr e, rest)

/-- `eat_rx_buffer` (`lib.rs` lines 332-345): drain buffered incoming bytes
until the transport reports `WouldBlock` (success) or fails. -/
def eat_rx_buffer : List (REv ρ) → Option ρ × List (REv ρ)
  | [] => (none, [])
  | .byte _ :: rest => eat_rx_buffer rest
  | .block :: rest => (none, rest)
  | .fail e :: rest => (some e, rest)

/-- The bounded-retry handshake loop shared by `binary_reset_handshake` and
`binary_mode_handshake` (`lib.rs`): up to `tries` attempts, each flushing,
writing the single entry byte `send`, and restarting the marker match from
zero; a matched attempt drains the rx buffer and succeeds, and exhausting
every attempt yields `Error::Protocol`. -/
def hsAttempts (expect : List Nat) (send : Nat) : Nat → Ch τ ρ → Res τ ρ Unit × Ch τ ρ
  | 0, c => (.err .Protocol, c)
  | n + 1, c =>
    match bindR (fl c) (fun _ c => wr send c) with
    | (.ok _, c) =>
      match matchLoop expect 0 c.rx with
      | (.matched, rx') =>
        match eat_rx_buffer rx' with
        | (none, rx'') => (.ok (), { c with rx := rx'' })
        | (some e, rx'') => (.err (.Read e), { c with rx := rx'' })
      | (.blocked, rx') => hsAttempts expect send n { c with rx := rx' }
      | (.rerr e, rx') => (.err (.Read e), { c with rx := rx' })
    | (r, c) => (r, c)

/-- `binary_reset_handshake` (`lib.rs` lines 287-330): 20 attempts, entry
byte `0x00`, marker `"BBIO1"`. -/
def binary_reset_handshake (c : Ch τ ρ) : Res τ ρ Unit × Ch τ ρ :=
  hsAttempts PROTO_VERSION_MSG 0 20 c

/-- `binary_mode_handshake` (`lib.rs` lines 240-285): 10 attempts, a
caller-chosen one-byte sub-protocol-select command and 4-byte marker
(`to_spi` passes `0b00000001` and `"SPI1"`). -/
def binary_mode_handshake (send : Nat) (expect : List Nat) (c : Ch τ ρ) :
    Res τ ρ Unit × Ch τ ρ :=
  hsAttempts expect send 10 c

namespace spi

/-- `spi::Speed` (`spi.rs` lines 190-199). -/
inductive Speed where
  | Speed30KHz | Speed125KHz | Speed250KHz | Speed1MHz
  | Speed2MHz | Speed2_6MHz | Speed4MHz | Speed8MHz
  deriving DecidableEq

/-- The 3-bit code assigned to each speed by `set_speed` (`spi.rs` lines
44-53, identically `lib.rs` lines 122-131). -/
def Speed.bits : Speed → Nat
  | .Speed30KHz => 0b000
  | .Speed125KHz => 0b001
  | .Speed250KHz => 0b010
  | .Speed1MHz => 0b011
  | .Speed2MHz => 0b100
  | .Speed2_6MHz => 0b101
  | .Speed4MHz => 0b110
  | .Speed8MHz => 0b111

/-- The command byte `set_speed` sends: `0b01000000 | bits`. -/
def Speed.command_byte (s : Speed) : Nat := 0b01000000 ||| s.bits

/-- `spi::PinOutput` (`spi.rs` lines 203-210). -/
inductive PinOutput where
  | PinOutputHiZ | PinOutput3_3V
  deriving DecidableEq

/-- `spi::ClockPhase` (`spi.rs` lines 213-216). -/
inductive ClockPhase where
  | ClockPhaseHigh | ClockPhaseLow
  deriving DecidableEq

/-- `spi::ClockEdge` (`spi.rs` lines 219-222). -/
inductive ClockEdge where
  | ClockEdgeFalling | ClockEdgeRising
  deriving DecidableEq

/-- `spi::SampleTime` (`spi.rs` lines 226-229). -/
inductive SampleTime where
  | SampleTimeMiddle | SampleTimeEnd
  deriving DecidableEq

/-- `spi::Config` (`spi.rs` lines 232-237). -/
structure Config where
  pin_output : PinOutput
  clock_idle_phase : ClockPhase
  clock_edge : ClockEdge
  sample_time : SampleTime
  deriving DecidableEq

/-- `spi::Config::command_byte` (`spi.rs` lines 249-272): the fixed high bit
`0b10000000` ORed with one bit per field at shifts 3, 2, 1, 0. -/
def Config.command_byte (cfg : Config) : Nat :=
  let cmd : Nat := 0b10000000
  let cmd := cmd ||| ((match cfg.pin_output with
    | .PinOutputHiZ => 0
    | .PinOutput3_3V => 1) <<< 3)
  let cmd := cmd ||| ((match cfg.clock_idle_phase with
    | .ClockPhaseLow => 0
    | .ClockPhaseHigh => 1) <<< 2)
  let cmd := cmd ||| ((match cfg.clock_edge with
    | .ClockEdgeRising => 0
    | .ClockEdgeFalling => 1) <<< 1)
  cmd ||| ((match cfg.sample_time with
    | .SampleTimeMiddle => 0
    | .SampleTimeEnd => 1) <<< 0)

end spi

namespace peripherals

/-- `peripherals::Config` (`peripherals.rs` lines 5-10). -/
structure Config where
  power_supply : Bool
  pull_ups : Bool
  aux : Bool
  cs : Bool
  deriving DecidableEq

/-- `peripherals::Config::command_byte` (`peripherals.rs` lines 13-20): the
fixed high bit `0b10000000` ORed with `(if feature { 0 } else { 1 }) << k`
for k = 3, 2, 1, 0 — inverted polarity, a set bit means disabled. -/
def Config.command_byte (cfg : Config) : Nat :=
  let cmd : Nat := 0b10000000
  let cmd := cmd ||| ((if cfg.power_supply then 0 else 1) <<< 3)
  let cmd := cmd ||| ((if cfg.pull_ups then 0 else 1) <<< 2)
  let cmd := cmd ||| ((if cfg.aux then 0 else 1) <<< 1)
  cmd ||| ((if cfg.cs then 0 else 1) <<< 0)

end peripherals

namespace Open

/-- `Open::send_close` (`lib.rs` lines 85-88): write the single reset
command byte `0b00001111`; nothing is flushed or read. -/
def send_close (c : Ch τ ρ) : Res τ ρ Unit × Ch τ ρ :=
  wr 0b00001111 c

/-- `Open::close` (`lib.rs` lines 74-83): send the reset command and return
to terminal mode; the only fallible step is the single write. -/
def close (c : Ch τ ρ) : Res τ ρ Unit × Ch τ ρ :=
  send_close c

end Open

namespace spi

/-- `<SPI as Comms>::transfer` (`spi.rs` lines 312-321), with explicit fuel:
while bytes remain, peel off the next slice of at most 16 bytes, run
`transfer_bytes` on it (overwriting it in place), and continue with the
rest.  Each pass consumes at least one byte, so `fuel = v.length` (as
`transfer` passes) always suffices; the `hang` at fuel 0 is unreachable
from `transfer`. -/
def transferGo : Nat → List Nat → Ch τ ρ → Res τ ρ Unit × List Nat × Ch τ ρ
  | _, [], c => (.ok (), [], c)
  | 0, v, c => (.hang, v, c)
  | fuel + 1, v@(_ :: _), c =>
    let n := if v.length > 16 then 16 else v.length
    match transfer_bytes (v.take n) c with
    | (.ok _, buf, c') =>
      match transferGo fuel (v.drop n) c' with
      | (r, rest, c'') => (r, buf ++ rest, c'')
    | (r, buf, c') => (r, buf ++ v.drop n, c')

/-- `<SPI as Comms>::transfer`: the unbounded caller-facing transfer. -/
def transfer (v : List Nat) (c : Ch τ ρ) : Res τ ρ Unit × List Nat × Ch τ ρ :=
  transferGo v.length v c

/-- Mock echo device for `transfer`: for each chunk the device acks with
`0x01` and then echoes the chunk's bytes back unchanged. -/
def echoRx : Nat → List Nat → List (REv ρ)
  | _, [] => []
  | 0, _ => []
  | fuel + 1, v@(_ :: _) =>
    let n := if v.length > 16 then 16 else v.length
    .byte 1 :: (v.take n).map .byte ++ echoRx fuel (v.drop n)

/-- The tx bytes `transfer` produces against an always-acking device: per
chunk, the command byte `0b00010000 | (n-1)` followed by the chunk. -/
def echoLog : Nat → List Nat → List Nat
  | _, [] => []
  | 0, _ => []
  | fuel + 1, v@(_ :: _) =>
    let n := if v.length > 16 then 16 else v.length
    (16 ||| (n - 1)) :: v.take n ++ echoLog fuel (v.drop n)

end spi

/-- The buffer state after the read-back loop `for i in 0..w.len() { v[i] = w[i] }`:
overwrite `v` starting at index `i` with the bytes of `w` in order. -/
def setFrom : List Nat → Nat → List Nat → List Nat
  | v, _, [] => v
  | v, i, b :: w => setFrom (v.set i b) (i + 1) w

/-! ## Helper lemmas -/

theorem wrList_ok (bs : List Nat) (rx : List (REv ρ)) (log : List Nat) :
    wrList (τ := τ) bs ⟨[], rx, log⟩ = (.ok (), ⟨[], rx, log ++ bs⟩) := by
  induction bs generalizing log with
  | nil => simp [wrList]
  | cons b t ih => simp [wrList, bindR, wr, ih]

theorem take_set_succ : ∀ (v : List Nat) (i b : Nat), i < v.length →
    (v.set i b).take (i + 1) = v.take i ++ [b] := by
  intro v
  induction v with
  | nil => intro i b h; simp at h
  | cons x xs ih =>
    intro i b h
    cases i with
    | zero => simp
    | succ j =>
      simp only [List.set_cons_succ, List.take_succ_cons, List.cons_append]
      rw [ih j b (by simpa using h)]

theorem setFrom_eq : ∀ (w v : List Nat) (i : Nat), v.length = i + w.length →
    setFrom v i w = v.take i ++ w := by
  intro w
  induction w with
  | nil =>
    intro v i h
    simp only [List.length_nil, Nat.add_zero] at h
    subst h
    simp [setFrom]
  | cons b t ih =>
    intro v i h
    simp only [List.length_cons] at h
    simp only [setFrom]
    rw [ih (v.set i b) (i + 1) (by simp [List.length_set]; omega)]
    rw [take_set_succ v i b (by omega)]
    simp

theorem setFrom_self (u : List Nat) : setFrom u 0 u = u := by
  rw [setFrom_eq u u 0 (by simp)]
  simp

theorem rdFill_map (w : List Nat) : ∀ (i : Nat) (v : List Nat) (rest : List (REv ρ))
    (log : List Nat),
    rdFill (τ := τ) w.length i v ⟨[], w.map .byte ++ rest, log⟩
      = (.ok (), setFrom v i w, ⟨[], rest, log⟩) := by
  induction w with
  | nil => intro i v rest log; simp [rdFill, setFrom]
  | cons b t ih =>
    intro i v rest log
    simp only [List.length_cons, List.map_cons, List.cons_append, rdFill, rd, rdEv]
    exact ih (i + 1) (v.set i b) rest log

theorem transfer_bytes_echo (u : List Nat) (rest : List (REv ρ)) (log : List Nat)
    (h1 : 1 ≤ u.length) (h16 : u.length ≤ 16) :
    spi.transfer_bytes (τ := τ) u ⟨[], .byte 1 :: (u.map .byte ++ rest), log⟩
      = (.ok (), u, ⟨[], rest, log ++ (16 ||| (u.length - 1)) :: u⟩) := by
  unfold spi.transfer_bytes
  rw [if_neg (by omega), if_neg (by omega)]
  simp only [bindR, wr, fl, rd, rdEv, wrList_ok]
  rw [if_pos trivial]
  simp only [rdFill_map u 0 u rest, setFrom_self]
  simp

theorem transferGo_echo : ∀ (fuel : Nat) (v : List Nat) (rest : List (REv ρ))
    (log : List Nat), v.length ≤ fuel →
    spi.transferGo (τ := τ) fuel v ⟨[], spi.echoRx fuel v ++ rest, log⟩
      = (.ok (), v, ⟨[], rest, log ++ spi.echoLog fuel v⟩) := by
  intro fuel
  induction fuel with
  | zero =>
    intro v rest log h
    have hv : v = [] := List.eq_nil_of_length_eq_zero (Nat.le_zero.mp h)
    subst hv
    simp [spi.transferGo, spi.echoRx, spi.echoLog]
  | succ fuel ih =>
    intro v rest log h
    cases v with
    | nil => simp [spi.transferGo, spi.echoRx, spi.echoLog]
    | cons b t =>
      simp only [List.length_cons] at h
      by_cases h16 : (b :: t).length > 16
      · have h16t : 16 ≤ t.length := by
          have h2 := h16; simp only [List.length_cons] at h2; omega
        simp only [spi.transferGo, spi.echoRx, spi.echoLog, if_pos h16,
          List.cons_append, List.append_assoc]
        rw [transfer_bytes_echo (List.take 16 (b :: t))
          (spi.echoRx fuel (List.drop 16 (b :: t)) ++ rest) log
          (by simp [List.length_take, List.length_cons])
          (by simp [List.length_take])]
        simp only []
        rw [ih (List.drop 16 (b :: t)) rest
          (log ++ (16 ||| (List.take 16 (b :: t)).length - 1) :: List.take 16 (b :: t))
          (by simp only [List.length_drop, List.length_cons]; omega)]
        have htk : (List.take 16 (b :: t)).length = 16 := by
          simp [List.length_take, List.length_cons]; omega
        have h15 : (15 : Nat) ⊓ t.length = 15 := by omega
        simp [htk, h15, List.take_append_drop, List.append_assoc, List.cons_append]
      · simp only [spi.transferGo, spi.echoRx, spi.echoLog, if_neg h16,
          List.cons_append, List.append_assoc, List.take_length, List.drop_length,
          List.nil_append]
        rw [transfer_bytes_echo (b :: t) rest log (by simp) (by omega)]
        simp [spi.transferGo, spi.echoRx, spi.echoLog]

theorem flwr_spec (send : Nat) (c : Ch τ ρ) :
    (∃ c', bindR (fl c) (fun _ c => wr send c) = (.ok (), c') ∧
       c'.log = c.log ++ [send]) ∨
    (∃ e c', bindR (fl c) (fun _ c => wr send c) = (.err (.Write e), c') ∧
       c'.log = c.log) := by
  rcases c with ⟨s, rx, log⟩
  cases s with
  | nil => exact Or.inl ⟨⟨[], rx, log ++ [send]⟩, by simp [bindR, fl, wr], by simp⟩
  | cons o t =>
    cases o with
    | some e => exact Or.inr ⟨e, ⟨t, rx, log⟩, by simp [bindR, fl, wr], by simp⟩
    | none =>
      cases t with
      | nil => exact Or.inl ⟨⟨[], rx, log ++ [send]⟩, by simp [bindR, fl, wr], by simp⟩
      | cons o2 t2 =>
        cases o2 with
        | some e => exact Or.inr ⟨e, ⟨t2, rx, log⟩, by simp [bindR, fl, wr], by simp⟩
        | none =>
          exact Or.inl ⟨⟨t2, rx, log ++ [send]⟩, by simp [bindR, fl, wr], by simp⟩

theorem hsAttempts_log (expect : List Nat) (send : Nat) :
    ∀ (n : Nat) (c : Ch τ ρ), ∃ k ≤ n,
      (hsAttempts expect send n c).2.log = c.log ++ List.replicate k send := by
  intro n
  induction n with
  | zero => intro c; exact ⟨0, Nat.le_refl 0, by simp [hsAttempts]⟩
  | succ n ih =>
    intro c
    rcases flwr_spec send c with ⟨c', heq, hlog⟩ | ⟨e, c', heq, hlog⟩
    · simp only [hsAttempts, heq]
      rcases hml : matchLoop expect 0 c'.rx with ⟨out, rx'⟩
      cases out with
      | matched =>
        rcases heat : eat_rx_buffer rx' with ⟨o, rx''⟩
        cases o with
        | none => exact ⟨1, by omega, by simp [heat, hlog]⟩
        | some e => exact ⟨1, by omega, by simp [heat, hlog]⟩
      | blocked =>
        rcases ih ⟨c'.sched, rx', c'.log⟩ with ⟨k, hk, hl⟩
        refine ⟨k + 1, by omega, ?_⟩
        rw [hl, hlog]
        simp [List.replicate_succ, List.append_assoc]
      | rerr e => exact ⟨1, by omega, by simp [hlog]⟩
    · simp only [hsAttempts, heq]
      exact ⟨0, by omega, by simp [hlog]⟩

/-! ## Claim theorems -/

/-- Claim C1, counterexample: the spec's own test vector fails on the code's
matcher.  Matching the marker "AAB" (`[65, 65, 66]`) against the stream
"AAAB" (`[65, 65, 65, 66]`) does NOT report success after consuming all 4
bytes: after "AA" the third 'A' resets the counter to 0 and re-matches it to
1, and the final 'B' then mismatches `expect[1] = 'A'`, resets, and fails
against `expect[0]`, leaving the attempt unmatched (it ends `blocked`,
waiting for more input). -/
theorem C1_counterexample :
    matchLoop (ρ := Unit) [65, 65, 66] 0 [.byte 65, .byte 65, .byte 65, .byte 66]
        = (.blocked, [])
    ∧ (matchLoop (ρ := Unit) [65, 65, 66] 0
        [.byte 65, .byte 65, .byte 65, .byte 66]).1 ≠ .matched := by
  decide

/-- Claim C1, amended: on a mismatching byte the matcher resets its counter
to 0 and then re-tests that same byte against `expect[0]`, so a byte that
breaks a partial match and starts a new match at position 0 is not lost
(e.g. "AB" against stream "AAB" succeeds); but the matcher keeps no longer
fallback, so matching "AAB" against "AAAB" does not succeed. -/
theorem C1_matcher :
    (∀ (expect : List Nat) (correct b : Nat), b ≠ expect.getD correct 0 →
       matchStep expect correct b = if b = expect.getD 0 0 then 1 else 0)
    ∧ matchLoop (ρ := Unit) [65, 66] 0 [.byte 65, .byte 65, .byte 66] = (.matched, [])
    ∧ (matchLoop (ρ := Unit) [65, 65, 66] 0
        [.byte 65, .byte 65, .byte 65, .byte 66]).1 = .blocked := by
  refine ⟨?_, by decide, by decide⟩
  intro expect correct b h
  simp only [matchStep]
  rw [if_pos h]

/-- Claim C1, witness: the reset-and-retest rule at a concrete input — with
marker "AAB", a partial match of 2 followed by the byte 'A' (which breaks
the partial match but equals `expect[0]`) leaves the counter at 1. -/
theorem C1_matcher_witness : matchStep [65, 65, 66] 2 65 = 1 := by
  rw [C1_matcher.1 [65, 65, 66] 2 65 (by decide)]
  decide

/-- Claim C2, counterexample: `spi.rs`'s `write_then_read` with
`write_len = 10` and `read_len = 20` does NOT return `Request`: it has no
`read_len ≤ write_len` check, so (against a device that acks and then sends
20 bytes of `7`) it performs the whole exchange, writing the command byte,
the four length bytes and the 10 data bytes. -/
theorem C2_counterexample :
    spi.write_then_read (List.replicate 10 170) (List.replicate 20 0) false
        (⟨[], .byte 1 :: List.replicate 20 (.byte 7), []⟩ : Ch Unit Unit)
      = (.ok (), List.replicate 20 7,
         ⟨[], [], [5, 0, 10, 0, 20] ++ List.replicate 10 170⟩) := by
  decide

/-- Claim C2, amended: the `lib.rs` buffered transfer
(`transfer_bytes_buffered`) rejects `read_len > write_len` with `Request`
before writing any bytes; the `spi.rs` buffered transfer
(`write_then_read`) enforces only the two independent 4096-byte caps (each
yielding `Request` before writing any bytes) and otherwise performs the
exchange even when `read_len > write_len`. -/
theorem C2_buffered :
    (∀ (τ ρ : Type) (v : List Nat) (want : Nat) (cs : Bool) (c : Ch τ ρ),
       want > v.length →
       Open.transfer_bytes_buffered v want cs c = (.err .Request, v, c))
    ∧ (∀ (τ ρ : Type) (wf ri : List Nat) (cs : Bool) (c : Ch τ ρ),
       wf.length > 4096 ∨ ri.length > 4096 →
       spi.write_then_read wf ri cs c = (.err .Request, ri, c)) := by
  constructor
  · intro τ ρ v want cs c h
    unfold Open.transfer_bytes_buffered
    by_cases h4 : v.length > 4096
    · rw [if_pos h4]
    · rw [if_neg h4, if_pos h]
  · intro τ ρ wf ri cs c h
    unfold spi.write_then_read
    by_cases h4 : wf.length > 4096
    · rw [if_pos h4]
    · rcases h with h | h
      · exact absurd h h4
      · rw [if_neg h4, if_pos h]

/-- Claim C2, witness: the `lib.rs` buffered transfer at `write_len = 10`,
`read_len = 20` returns `Request` with nothing written. -/
theorem C2_buffered_witness :
    Open.transfer_bytes_buffered (List.replicate 10 170) 20 false
        (⟨[], [], []⟩ : Ch Unit Unit)
      = (.err .Request, List.replicate 10 170, ⟨[], [], []⟩) :=
  C2_buffered.1 Unit Unit (List.replicate 10 170) 20 false ⟨[], [], []⟩ (by decide)

/-- Claim C3: evaluation at the failing input.  The `lib.rs`
`Open::<SPI>::transfer_bytes` has no zero-length guard: on the empty slice
it evaluates `(0u8) - 1` (a panic in a debug build; wrapping to 255 in a
release build) and writes the bogus command byte `0xFF` to the transport.
The `spi.rs` `SPI::transfer_bytes` guards `v.len() == 0` and is a true
no-op: `Ok` with the empty slice and nothing written or read. -/
theorem C3_zero_length :
    Open.transfer_bytes ([] : List Nat) (⟨[], [.byte 1], []⟩ : Ch Unit Unit)
      = (.ok (), [], ⟨[], [], [255]⟩)
    ∧ spi.transfer_bytes ([] : List Nat) (⟨[], [.byte 1], []⟩ : Ch Unit Unit)
      = (.ok (), [], ⟨[], [.byte 1], []⟩) := by
  decide

/-- Claim C4: the enter-BitBang handshake `binary_reset_handshake` performs
at most 20 attempts — over every rx stream and tx schedule it writes at most
20 bytes, all of them the zero entry byte; a device that first presents the
"BBIO1" marker on its 3rd attempt (two attempts that would block, then the
marker) still succeeds, having been sent exactly 3 zero bytes; and a device
that never presents the marker within the budget yields `Protocol` after
exactly 20 zero bytes. -/
theorem C4_reset_handshake :
    (∀ (τ ρ : Type) (c : Ch τ ρ), ∃ k ≤ 20,
       (binary_reset_handshake c).2.log = c.log ++ List.replicate k 0)
    ∧ binary_reset_handshake
        (⟨[], [.block, .block, .byte 66, .byte 66, .byte 73, .byte 79, .byte 49],
          []⟩ : Ch Unit Unit)
      = (.ok (), ⟨[], [], [0, 0, 0]⟩)
    ∧ binary_reset_handshake (⟨[], List.replicate 20 .block, []⟩ : Ch Unit Unit)
      = (.err .Protocol, ⟨[], [], List.replicate 20 0⟩) := by
  refine ⟨?_, by decide, by decide⟩
  intro τ ρ c
  exact hsAttempts_log PROTO_VERSION_MSG 0 20 c

/-- Claim C5: a simple transfer longer than 16 bytes returns `Request`
without touching the transport — in both the `spi.rs` and the `lib.rs`
version the channel is returned unchanged (nothing written, nothing read)
and the buffer is untouched. -/
theorem C5_overlong :
    ∀ (τ ρ : Type) (v : List Nat) (c : Ch τ ρ), v.length > 16 →
      spi.transfer_bytes v c = (.err .Request, v, c)
      ∧ Open.transfer_bytes v c = (.err .Request, v, c) := by
  intro τ ρ v c h
  constructor
  · unfold spi.transfer_bytes
    rw [if_neg (by omega), if_pos h]
  · unfold Open.transfer_bytes
    rw [if_pos h]

/-- Claim C5, witness: length 17 concretely. -/
theorem C5_overlong_witness :
    spi.transfer_bytes (List.replicate 17 0) (⟨[], [], []⟩ : Ch Unit Unit)
      = (.err .Request, List.replicate 17 0, ⟨[], [], []⟩)
    ∧ Open.transfer_bytes (List.replicate 17 0) (⟨[], [], []⟩ : Ch Unit Unit)
      = (.err .Request, List.replicate 17 0, ⟨[], [], []⟩) :=
  C5_overlong Unit Unit (List.replicate 17 0) ⟨[], [], []⟩ (by decide)

/-- Claim C6: `Comms::transfer` chunks any buffer into consecutive slices of
at most 16 bytes, in order, overwriting each slice in place.  Against an
echo device (ack then echo per chunk) every buffer is returned `Ok` and
byte-for-byte unchanged, and the tx log is exactly the per-chunk command
byte followed by that chunk's bytes; for a 20-byte buffer the log shows
exactly 2 underlying `transfer_bytes` calls — command `0b00011111` (16
bytes, length−1 = 15) with the first 16 bytes, then command `0b00010011`
(4 bytes, length−1 = 3) with the last 4 bytes, order preserved. -/
theorem C6_transfer :
    (∀ (τ ρ : Type) (v : List Nat),
       spi.transfer v (⟨[], spi.echoRx v.length v, []⟩ : Ch τ ρ)
         = (.ok (), v, ⟨[], [], spi.echoLog v.length v⟩))
    ∧ spi.transfer
        [100, 101, 102, 103, 104, 105, 106, 107, 108, 109,
         110, 111, 112, 113, 114, 115, 116, 117, 118, 119]
        (⟨[], spi.echoRx 20
          [100, 101, 102, 103, 104, 105, 106, 107, 108, 109,
           110, 111, 112, 113, 114, 115, 116, 117, 118, 119], []⟩ : Ch Unit Unit)
      = (.ok (),
         [100, 101, 102, 103, 104, 105, 106, 107, 108, 109,
          110, 111, 112, 113, 114, 115, 116, 117, 118, 119],
         ⟨[], [],
          [31, 100, 101, 102, 103, 104, 105, 106, 107, 108, 109,
           110, 111, 112, 113, 114, 115, 19, 116, 117, 118, 119]⟩) := by
  constructor
  · intro τ ρ v
    have h := transferGo_echo (τ := τ) (ρ := ρ) v.length v [] [] (Nat.le_refl _)
    simpa [spi.transfer] using h
  · decide

/-- Claim C7: the command-byte encoders are pure functions (determinism is
inherent in the model) whose result always has the top bit `0b10000000`
set, for every SPI `Config` and every peripherals `Config`; and the four
peripheral booleans are encoded with inverted polarity — bit 3 is set
exactly when the power supply is disabled, bit 2 when the pull-ups are
disabled, bit 1 when aux is disabled, bit 0 when chip-select is disabled. -/
theorem C7_config_encoding :
    ∀ (sc : spi.Config) (pc : peripherals.Config),
      (spi.Config.command_byte sc).testBit 7 = true
      ∧ (peripherals.Config.command_byte pc).testBit 7 = true
      ∧ (peripherals.Config.command_byte pc).testBit 3 = !pc.power_supply
      ∧ (peripherals.Config.command_byte pc).testBit 2 = !pc.pull_ups
      ∧ (peripherals.Config.command_byte pc).testBit 1 = !pc.aux
      ∧ (peripherals.Config.command_byte pc).testBit 0 = !pc.cs := by
  intro sc pc
  obtain ⟨a, b, c, d⟩ := sc
  obtain ⟨p, q, r, s⟩ := pc
  cases a <;> cases b <;> cases c <;> cases d <;> cases p <;> cases q <;> cases r <;>
    cases s <;> decide

/-- Claim C8: the encoding of the eight SPI speeds is injective, and every
encoded command byte lies between `0b01000000` (64) and `0b01000111` (71)
inclusive. -/
theorem C8_speed_encoding :
    (∀ s t : spi.Speed, spi.Speed.command_byte s = spi.Speed.command_byte t → s = t)
    ∧ (∀ s : spi.Speed,
        64 ≤ spi.Speed.command_byte s ∧ spi.Speed.command_byte s ≤ 71) := by
  constructor
  · intro s t
    cases s <;> cases t <;> decide
  · intro s
    cases s <;> decide

/-- Claim C8, witness: the injectivity hypothesis discharged at a concrete
speed, and the range at the top speed (`0b01000111 = 71`). -/
theorem C8_speed_witness :
    spi.Speed.Speed8MHz = spi.Speed.Speed8MHz
    ∧ 64 ≤ spi.Speed.command_byte spi.Speed.Speed8MHz
    ∧ spi.Speed.command_byte spi.Speed.Speed8MHz ≤ 71 :=
  ⟨C8_speed_encoding.1 spi.Speed.Speed8MHz spi.Speed.Speed8MHz rfl,
   (C8_speed_encoding.2 spi.Speed.Speed8MHz).1,
   (C8_speed_encoding.2 spi.Speed.Speed8MHz).2⟩

/-- Claim C9: `close` from an open binary mode writes exactly the one reset
command byte `0b00001111`, reads nothing (the rx stream is untouched), and
fails only with `Write(transport error)`: the result is either `Ok` with
the single byte logged, or `Write e` — never `Protocol`, `Request` or
`Read`. -/
theorem C9_close :
    ∀ (τ ρ : Type) (c : Ch τ ρ),
      (Open.close c).2.rx = c.rx
      ∧ (((Open.close c).1 = .ok ()
            ∧ (Open.close c).2.log = c.log ++ [0b00001111])
         ∨ (∃ e, (Open.close c).1 = .err (.Write e)
            ∧ (Open.close c).2.log = c.log)) := by
  intro τ ρ c
  rcases c with ⟨s, rx, log⟩
  cases s with
  | nil => exact ⟨rfl, Or.inl ⟨rfl, rfl⟩⟩
  | cons o t =>
    cases o with
    | none => exact ⟨rfl, Or.inl ⟨rfl, rfl⟩⟩
    | some e => exact ⟨rfl, Or.inr ⟨e, rfl, rfl⟩⟩

/-- Claim C10: if the ack byte read by `transfer_bytes` after the command,
data and flush is any value other than `0x01`, the function returns
`Protocol` having consumed only that ack byte — no response bytes are read
and the caller's buffer still holds exactly the values it had on entry.
Proved for both the `spi.rs` and the `lib.rs` version. -/
theorem C10_ack_protocol :
    ∀ (τ ρ : Type) (v : List Nat) (a : Nat) (rest : List (REv ρ)) (log : List Nat),
      1 ≤ v.length → v.length ≤ 16 → a ≠ 1 →
      spi.transfer_bytes v (⟨[], .byte a :: rest, log⟩ : Ch τ ρ)
        = (.err .Protocol, v, ⟨[], rest, log ++ (16 ||| (v.length - 1)) :: v⟩)
      ∧ Open.transfer_bytes v (⟨[], .byte a :: rest, log⟩ : Ch τ ρ)
        = (.err .Protocol, v, ⟨[], rest, log ++ (16 ||| (v.length - 1)) :: v⟩) := by
  intro τ ρ v a rest log h1 h16 ha
  have hcmd : (v.length % 256 + 255) % 256 = v.length - 1 := by omega
  constructor
  · unfold spi.transfer_bytes
    rw [if_neg (by omega), if_neg (by omega)]
    simp only [bindR, wr, fl, rd, rdEv, wrList_ok]
    rw [if_neg ha]
    simp
  · unfold Open.transfer_bytes
    rw [if_neg (by omega), hcmd]
    simp only [bindR, wr, fl, rd, rdEv, wrList_ok]
    rw [if_neg ha]
    simp

/-- Claim C10, witness: a 2-byte buffer and an ack of 0 — `Protocol`, the
buffer `[7, 8]` unchanged, only the ack consumed, and the tx log holding
the command byte `0b00010001 = 17` and the two data bytes. -/
theorem C10_ack_protocol_witness :
    spi.transfer_bytes [7, 8] (⟨[], [.byte 0], []⟩ : Ch Unit Unit)
      = (.err .Protocol, [7, 8], ⟨[], [], [] ++ (16 ||| ([7, 8].length - 1)) :: [7, 8]⟩)
    ∧ Open.transfer_bytes [7, 8] (⟨[], [.byte 0], []⟩ : Ch Unit Unit)
      = (.err .Protocol, [7, 8], ⟨[], [], [] ++ (16 ||| ([7, 8].length - 1)) :: [7, 8]⟩) :=
  C10_ack_protocol Unit Unit [7, 8] 0 [] [] (by decide) (by decide) (by decide)

end Buspirate
